import Mathlib

/-!
Shallow embedding of the two Anchor programs in this repository:
`programs/xenblocks-airdrop-tracker/src/lib.rs` (variant A: 3 tokens + native)
and `programs/xnm-airdrop-tracker/src/lib.rs` (variant B: 2 tokens with a
`token_type` selector).

Modelling conventions:
- `u64`/`u32` values are `Nat`; overflow is handled exactly where the source
  handles it (`checked_add`), with well-formedness bounds (`≤ U64_MAX`) as
  explicit hypotheses where a claim needs them.
- A Solana `Pubkey` is an abstract identity, modelled as `Nat`.
- Account storage is a `Chain` structure: the singleton `GlobalState`
  (PDA seeds `[b"state"]`), a map from run counter values to `AirdropRun`
  accounts (PDA seeds `[b"run", id.to_le_bytes()]`), and a map from derived
  record keys to `AirdropRecord` accounts (PDA seeds
  `[b"airdrop_record", sol_wallet, eth_address[..20]]`).  The PDA seed
  derivation is injective in its seed inputs, so the key of a record account
  is modelled as the pair (wallet, first 20 address bytes).
- Each instruction is a pure function `Chain → Except Err Chain`.  The
  Solana runtime commits account writes only when the instruction returns
  `Ok`; on any error the whole transaction is rolled back.  The in-memory,
  possibly partially mutated account data of a failing instruction body is
  modelled separately (`update_record_body_A`) so that the all-or-nothing
  commit is a statement about the wrapper, not baked into the body.
- Anchor account constraints (`init` create-once, `constraint ... @
  ErrorCode::Unauthorized`, `seeds`/`bump` checks) are checked in the order
  Anchor checks them, before the instruction body runs.  Errors raised by
  the runtime rather than the program's own `ErrorCode` enum are the
  `Account*`/`ConstraintSeeds` constructors below.
-/

namespace XenAirdrop

/-- Maximum value of a Rust `u64`. -/
def U64_MAX : Nat := 2 ^ 64 - 1

/-- Rust `u64::checked_add`: `some` of the sum when it is representable,
`none` on overflow. -/
def checked_add (a b : Nat) : Option Nat :=
  if a + b ≤ U64_MAX then some (a + b) else none

/-- Abstract Solana public key / identity. -/
abbrev Pubkey := Nat

/-- Errors: the program's own `ErrorCode` variants (`Overflow`,
`Unauthorized`, `InvalidTokenType`) plus the runtime/Anchor failures that
the instructions can surface (`init` on an existing account, a missing
account, a PDA seeds mismatch). -/
inductive Err where
  | Overflow
  | Unauthorized
  | InvalidTokenType
  | AccountAlreadyInUse
  | AccountNotFound
  | ConstraintSeeds
  deriving DecidableEq

/-- `GlobalState` account (identical in both variants). -/
structure GlobalState where
  authority : Pubkey
  run_counter : Nat
  bump : Nat
  deriving DecidableEq

/-- `AirdropRun` account (identical in both variants). -/
structure AirdropRun where
  run_id : Nat
  run_date : Int
  total_recipients : Nat
  total_amount : Nat
  dry_run : Bool
  bump : Nat
  deriving DecidableEq

/-- Variant A `AirdropRecord`: three token counters plus native, and a
4-element reserved array. -/
structure AirdropRecord where
  sol_wallet : Pubkey
  eth_address : List Nat
  xnm_airdropped : Nat
  xblk_airdropped : Nat
  xuni_airdropped : Nat
  native_airdropped : Nat
  reserved : List Nat
  last_updated : Int
  bump : Nat
  deriving DecidableEq

/-- Variant B `AirdropRecord`: two token counters and a 6-element reserved
array. -/
structure AirdropRecordB where
  sol_wallet : Pubkey
  eth_address : List Nat
  xnm_airdropped : Nat
  xblk_airdropped : Nat
  reserved : List Nat
  last_updated : Int
  bump : Nat
  deriving DecidableEq

/-- Derived address of an `AirdropRecord` PDA: determined by the wallet key
and the first 20 bytes of the 42-byte ETH address (`&eth_address[..20]`). -/
structure RecordKey where
  wallet : Pubkey
  addr20 : List Nat
  deriving DecidableEq

/-- PDA derivation for record accounts, seeds
`[b"airdrop_record", sol_wallet, &eth_address[..20]]`. -/
def deriveRecordKey (wallet : Pubkey) (eth : List Nat) : RecordKey :=
  ⟨wallet, eth.take 20⟩

/-- The on-chain account state of one deployment, generic in the record
type (`AirdropRecord` for variant A, `AirdropRecordB` for variant B). -/
structure Chain (R : Type) where
  global : Option GlobalState
  runs : Nat → Option AirdropRun
  records : RecordKey → Option R

/-- The chain before any account of the program exists. -/
def Chain.empty {R : Type} : Chain R :=
  ⟨none, fun _ => none, fun _ => none⟩

/-- Store a run account at a run-counter key. -/
def setRun {R : Type} (s : Chain R) (k : Nat) (run : AirdropRun) : Chain R :=
  { s with runs := fun j => if j = k then some run else s.runs j }

/-- Store a record account at a derived key. -/
def setRecord {R : Type} (s : Chain R) (k : RecordKey) (r : R) : Chain R :=
  { s with records := fun j => if j = k then some r else s.records j }

/-- Delete (close) the record account at a derived key. -/
def delRecord {R : Type} (s : Chain R) (k : RecordKey) : Chain R :=
  { s with records := fun j => if j = k then none else s.records j }

/-- Transaction-level commit: account writes persist only when the
instruction returned `Ok`; any error rolls the whole transaction back. -/
def commit {R : Type} (s : Chain R) (res : Except Err (Chain R)) : Chain R :=
  match res with
  | .ok s' => s'
  | .error _ => s

/-- `initialize_state`: `init` on the `[b"state"]` PDA fails if the
singleton already exists; otherwise sets `authority` to the signer and
`run_counter = 0`. -/
def initialize_state {R : Type} (s : Chain R) (caller : Pubkey) (bump : Nat) :
    Except Err (Chain R) :=
  match s.global with
  | some _ => .error .AccountAlreadyInUse
  | none => .ok { s with global := some ⟨caller, 0, bump⟩ }

/-- `create_run`: requires the state to exist and
`state.authority == authority.key()` (else `Unauthorized`), `init`s the run
account at seeds `[b"run", (run_counter + 1)]`, increments the counter and
fills the new run.  The `u64` increment is overflow-checked.
Modelled from the spec: the crate's build profile (overflow-checks) is not
under `src/`; the spec fixes `run_counter` as a monotonically increasing
`u64`, so the increment fails rather than wraps at `u64::MAX`. -/
def create_run {R : Type} (s : Chain R) (caller : Pubkey) (dry : Bool)
    (now : Int) (bump : Nat) : Except Err (Chain R) :=
  match s.global with
  | none => .error .AccountNotFound
  | some st =>
    if st.authority = caller then
      if st.run_counter + 1 ≤ U64_MAX then
        match s.runs (st.run_counter + 1) with
        | some _ => .error .AccountAlreadyInUse
        | none =>
          .ok (setRun { s with global := some ⟨st.authority, st.run_counter + 1, st.bump⟩ }
                (st.run_counter + 1)
                ⟨st.run_counter + 1, now, 0, 0, dry, bump⟩)
      else .error .Overflow
    else .error .Unauthorized

/-- `update_run_totals`: requires `state.authority == authority.key()`
(else `Unauthorized`) and the run account to exist; overwrites
`total_recipients` and `total_amount` unconditionally. -/
def update_run_totals {R : Type} (s : Chain R) (caller : Pubkey)
    (run_id tr ta : Nat) : Except Err (Chain R) :=
  match s.global with
  | none => .error .AccountNotFound
  | some st =>
    if st.authority = caller then
      match s.runs run_id with
      | none => .error .AccountNotFound
      | some run =>
        .ok (setRun s run_id { run with total_recipients := tr, total_amount := ta })
    else .error .Unauthorized

/-- Variant A `initialize_record`: `init` on the record PDA (fails when a
record for the derived key already exists), then zeroes every cumulative
counter, zeroes `reserved`, stores the full 42-byte address and stamps
`last_updated`.  The `authority` account is only the payer/signer: the body
never compares it with `GlobalState.authority`, so `_caller` is unused. -/
def initialize_record_A (s : Chain AirdropRecord) (_caller : Pubkey)
    (wallet : Pubkey) (eth : List Nat) (now : Int) (bump : Nat) :
    Except Err (Chain AirdropRecord) :=
  match s.records (deriveRecordKey wallet eth) with
  | some _ => .error .AccountAlreadyInUse
  | none =>
    .ok (setRecord s (deriveRecordKey wallet eth)
          ⟨wallet, eth, 0, 0, 0, 0, List.replicate 4 0, now, bump⟩)

/-- The body of variant A `update_record`, mutating the in-memory account
data field by field exactly as the Rust does, with an early return on the
first failing `checked_add`.  Returns the in-memory record at the point of
return together with `some` error on failure — on the failing path earlier
additions have already been written to the in-memory data. -/
def update_record_body_A (r : AirdropRecord) (x b u n : Nat) (now : Int) :
    AirdropRecord × Option Err :=
  match checked_add r.xnm_airdropped x with
  | none => (r, some .Overflow)
  | some v1 =>
    let r1 := { r with xnm_airdropped := v1 }
    match checked_add r1.xblk_airdropped b with
    | none => (r1, some .Overflow)
    | some v2 =>
      let r2 := { r1 with xblk_airdropped := v2 }
      match checked_add r2.xuni_airdropped u with
      | none => (r2, some .Overflow)
      | some v3 =>
        let r3 := { r2 with xuni_airdropped := v3 }
        match checked_add r3.native_airdropped n with
        | none => (r3, some .Overflow)
        | some v4 =>
          ({ r3 with native_airdropped := v4, last_updated := now }, none)

/-- Variant A `update_record` at the level of one record account, with the
transaction-commit semantics: the mutated data is persisted only when the
body returns without error; otherwise the pre-call record stands. -/
def update_record_tx_A (r : AirdropRecord) (d : Nat × Nat × Nat × Nat)
    (now : Int) : Except Err AirdropRecord :=
  match update_record_body_A r d.1 d.2.1 d.2.2.1 d.2.2.2 now with
  | (r', none) => .ok r'
  | (_, some e) => .error e

/-- Variant A `update_record` on the chain: loads the record account (its
address must match the PDA derived from its own stored `sol_wallet` and
`eth_address[..20]`), runs the body, commits on success.  No authority
comparison is performed (`_caller` unused — the `UpdateRecord` accounts
struct has no `constraint` on `authority`). -/
def update_record_A (s : Chain AirdropRecord) (_caller : Pubkey)
    (k : RecordKey) (x b u n : Nat) (now : Int) :
    Except Err (Chain AirdropRecord) :=
  match s.records k with
  | none => .error .AccountNotFound
  | some r =>
    if deriveRecordKey r.sol_wallet r.eth_address = k then
      match update_record_tx_A r (x, b, u, n) now with
      | .ok r' => .ok (setRecord s k r')
      | .error e => .error e
    else .error .ConstraintSeeds

/-- Variant A `initialize_and_update`: `init` on the record PDA, then sets
the four counters directly to the supplied amounts (no `checked_add`),
zeroes `reserved` and stamps `last_updated`.  No authority comparison. -/
def initialize_and_update_A (s : Chain AirdropRecord) (_caller : Pubkey)
    (wallet : Pubkey) (eth : List Nat) (x b u n : Nat) (now : Int)
    (bump : Nat) : Except Err (Chain AirdropRecord) :=
  match s.records (deriveRecordKey wallet eth) with
  | some _ => .error .AccountAlreadyInUse
  | none =>
    .ok (setRecord s (deriveRecordKey wallet eth)
          ⟨wallet, eth, x, b, u, n, List.replicate 4 0, now, bump⟩)

/-- Variant A `close_record`: loads the record account (seeds check against
its own stored fields) and closes it, removing it from storage.  The body
does nothing; closing is the Anchor `close = authority` attribute.  No
authority comparison is performed (`_caller` unused). -/
def close_record_A (s : Chain AirdropRecord) (_caller : Pubkey)
    (k : RecordKey) : Except Err (Chain AirdropRecord) :=
  match s.records k with
  | none => .error .AccountNotFound
  | some r =>
    if deriveRecordKey r.sol_wallet r.eth_address = k then
      .ok (delRecord s k)
    else .error .ConstraintSeeds

/-- Variant B `initialize_record`: like variant A but with two counters and
a 6-element reserved array. -/
def initialize_record_B (s : Chain AirdropRecordB) (_caller : Pubkey)
    (wallet : Pubkey) (eth : List Nat) (now : Int) (bump : Nat) :
    Except Err (Chain AirdropRecordB) :=
  match s.records (deriveRecordKey wallet eth) with
  | some _ => .error .AccountAlreadyInUse
  | none =>
    .ok (setRecord s (deriveRecordKey wallet eth)
          ⟨wallet, eth, 0, 0, List.replicate 6 0, now, bump⟩)

/-- The body of variant B `update_record`: matches on the `token_type`
selector (a `u8`), `checked_add`s exactly one counter for selector 0 (XNM)
or 1 (XBLK), and fails with `InvalidTokenType` on any other selector. -/
def update_record_body_B (r : AirdropRecordB) (token_type amount : Nat)
    (now : Int) : AirdropRecordB × Option Err :=
  match token_type with
  | 0 =>
    match checked_add r.xnm_airdropped amount with
    | none => (r, some .Overflow)
    | some v => ({ r with xnm_airdropped := v, last_updated := now }, none)
  | 1 =>
    match checked_add r.xblk_airdropped amount with
    | none => (r, some .Overflow)
    | some v => ({ r with xblk_airdropped := v, last_updated := now }, none)
  | _ => (r, some .InvalidTokenType)

/-- Variant B `update_record` at the level of one record account, with the
transaction-commit semantics. -/
def update_record_tx_B (r : AirdropRecordB) (token_type amount : Nat)
    (now : Int) : Except Err AirdropRecordB :=
  match update_record_body_B r token_type amount now with
  | (r', none) => .ok r'
  | (_, some e) => .error e

/-- Variant B `update_record` on the chain.  No authority comparison. -/
def update_record_B (s : Chain AirdropRecordB) (_caller : Pubkey)
    (k : RecordKey) (token_type amount : Nat) (now : Int) :
    Except Err (Chain AirdropRecordB) :=
  match s.records k with
  | none => .error .AccountNotFound
  | some r =>
    if deriveRecordKey r.sol_wallet r.eth_address = k then
      match update_record_tx_B r token_type amount now with
      | .ok r' => .ok (setRecord s k r')
      | .error e => .error e
    else .error .ConstraintSeeds

/-- Variant B `initialize_and_update`: `init` on the record PDA, zeroes
both counters and `reserved`, then sets the selected counter to
`initial_amount`; an invalid selector aborts the whole transaction (the
freshly created account is rolled back). -/
def initialize_and_update_B (s : Chain AirdropRecordB) (_caller : Pubkey)
    (wallet : Pubkey) (eth : List Nat) (token_type amount : Nat) (now : Int)
    (bump : Nat) : Except Err (Chain AirdropRecordB) :=
  match s.records (deriveRecordKey wallet eth) with
  | some _ => .error .AccountAlreadyInUse
  | none =>
    match token_type with
    | 0 =>
      .ok (setRecord s (deriveRecordKey wallet eth)
            ⟨wallet, eth, amount, 0, List.replicate 6 0, now, bump⟩)
    | 1 =>
      .ok (setRecord s (deriveRecordKey wallet eth)
            ⟨wallet, eth, 0, amount, List.replicate 6 0, now, bump⟩)
    | _ => .error .InvalidTokenType

/-- Variant B `close_record`. -/
def close_record_B (s : Chain AirdropRecordB) (_caller : Pubkey)
    (k : RecordKey) : Except Err (Chain AirdropRecordB) :=
  match s.records k with
  | none => .error .AccountNotFound
  | some r =>
    if deriveRecordKey r.sol_wallet r.eth_address = k then
      .ok (delRecord s k)
    else .error .ConstraintSeeds

/-- One variant A `update_record` call as seen by later calls: on failure
the transaction rolls back and the pre-call record stands. -/
def stepA (now : Int) (r : AirdropRecord) (d : Nat × Nat × Nat × Nat) :
    AirdropRecord :=
  match update_record_tx_A r d now with
  | .ok r' => r'
  | .error _ => r

/-- A sequence of variant A `update_record` calls on the same record. -/
def runSeqA (now : Int) (r : AirdropRecord)
    (ds : List (Nat × Nat × Nat × Nat)) : AirdropRecord :=
  ds.foldl (stepA now) r

/-- The deltas of the successfully applied calls of a sequence. -/
def appliedA (now : Int) :
    AirdropRecord → List (Nat × Nat × Nat × Nat) → List (Nat × Nat × Nat × Nat)
  | _, [] => []
  | r, d :: rest =>
    match update_record_tx_A r d now with
    | .ok r' => d :: appliedA now r' rest
    | .error _ => appliedA now r rest

/-- One variant B `update_record` call as seen by later calls. -/
def stepB (now : Int) (r : AirdropRecordB) (t a : Nat) : AirdropRecordB :=
  match update_record_tx_B r t a now with
  | .ok r' => r'
  | .error _ => r

/-- A sequence of `create_run` calls, each with its own `dry_run` flag,
timestamp and bump; the sequence stops at the first failure. -/
def create_runs {R : Type} :
    Chain R → Pubkey → List (Bool × Int × Nat) → Except Err (Chain R)
  | s, _, [] => .ok s
  | s, c, (d, now, bp) :: rest =>
    match create_run s c d now bp with
    | .ok s' => create_runs s' c rest
    | .error e => .error e

/-- Chain states of the variant A deployment reachable from the empty chain
by committed (successful) instructions. -/
inductive ReachableA : Chain AirdropRecord → Prop where
  | empty : ReachableA Chain.empty
  | init_state {s s' : Chain AirdropRecord} {c : Pubkey} {bp : Nat} :
      ReachableA s → initialize_state s c bp = .ok s' → ReachableA s'
  | c_run {s s' : Chain AirdropRecord} {c : Pubkey} {d : Bool} {now : Int} {bp : Nat} :
      ReachableA s → create_run s c d now bp = .ok s' → ReachableA s'
  | run_totals {s s' : Chain AirdropRecord} {c : Pubkey} {rid tr ta : Nat} :
      ReachableA s → update_run_totals s c rid tr ta = .ok s' → ReachableA s'
  | init_rec {s s' : Chain AirdropRecord} {c w : Pubkey} {eth : List Nat} {now : Int} {bp : Nat} :
      ReachableA s → initialize_record_A s c w eth now bp = .ok s' → ReachableA s'
  | upd_rec {s s' : Chain AirdropRecord} {c : Pubkey} {k : RecordKey} {x b u n : Nat} {now : Int} :
      ReachableA s → update_record_A s c k x b u n now = .ok s' → ReachableA s'
  | init_upd {s s' : Chain AirdropRecord} {c w : Pubkey} {eth : List Nat} {x b u n : Nat} {now : Int} {bp : Nat} :
      ReachableA s → initialize_and_update_A s c w eth x b u n now bp = .ok s' → ReachableA s'
  | close_rec {s s' : Chain AirdropRecord} {c : Pubkey} {k : RecordKey} :
      ReachableA s → close_record_A s c k = .ok s' → ReachableA s'

/-- Chain states of the variant B deployment reachable from the empty chain
by committed (successful) instructions. -/
inductive ReachableB : Chain AirdropRecordB → Prop where
  | empty : ReachableB Chain.empty
  | init_state {s s' : Chain AirdropRecordB} {c : Pubkey} {bp : Nat} :
      ReachableB s → initialize_state s c bp = .ok s' → ReachableB s'
  | c_run {s s' : Chain AirdropRecordB} {c : Pubkey} {d : Bool} {now : Int} {bp : Nat} :
      ReachableB s → create_run s c d now bp = .ok s' → ReachableB s'
  | run_totals {s s' : Chain AirdropRecordB} {c : Pubkey} {rid tr ta : Nat} :
      ReachableB s → update_run_totals s c rid tr ta = .ok s' → ReachableB s'
  | init_rec {s s' : Chain AirdropRecordB} {c w : Pubkey} {eth : List Nat} {now : Int} {bp : Nat} :
      ReachableB s → initialize_record_B s c w eth now bp = .ok s' → ReachableB s'
  | upd_rec {s s' : Chain AirdropRecordB} {c : Pubkey} {k : RecordKey} {t a : Nat} {now : Int} :
      ReachableB s → update_record_B s c k t a now = .ok s' → ReachableB s'
  | init_upd {s s' : Chain AirdropRecordB} {c w : Pubkey} {eth : List Nat} {t a : Nat} {now : Int} {bp : Nat} :
      ReachableB s → initialize_and_update_B s c w eth t a now bp = .ok s' → ReachableB s'
  | close_rec {s s' : Chain AirdropRecordB} {c : Pubkey} {k : RecordKey} :
      ReachableB s → close_record_B s c k = .ok s' → ReachableB s'

/-- A 42-byte demo ETH address (all zero bytes). -/
def demoEth : List Nat := List.replicate 42 0

/-- A second 42-byte demo address agreeing with `demoEth` on the first 20
bytes and differing afterwards. -/
def demoEth2 : List Nat := List.replicate 20 0 ++ List.replicate 22 1

/-- The derived key of the demo record (wallet 5, address `demoEth`). -/
def demoKey : RecordKey := deriveRecordKey 5 demoEth

/-- A demo record for wallet 5 at `demoEth`, all counters zero. -/
def demoRec : AirdropRecord :=
  ⟨5, demoEth, 0, 0, 0, 0, List.replicate 4 0, 0, 255⟩

/-- A demo variant A chain: authority is key 0, one record exists. -/
def demoChainA : Chain AirdropRecord :=
  ⟨some ⟨0, 0, 254⟩, fun _ => none, fun j => if j = demoKey then some demoRec else none⟩

/-- A record whose `xblk` counter sits at `u64::MAX`, so that an update
with a nonzero `xblk` delta overflows after the `xnm` addition already
succeeded. -/
def overflowRec : AirdropRecord :=
  ⟨5, demoEth, 0, U64_MAX, 0, 0, List.replicate 4 0, 0, 255⟩

theorem update_record_tx_A_ok_iff (r : AirdropRecord) (x b u n : Nat)
    (now : Int) (r' : AirdropRecord) :
    update_record_tx_A r (x, b, u, n) now = .ok r' ↔
      r.xnm_airdropped + x ≤ U64_MAX ∧ r.xblk_airdropped + b ≤ U64_MAX ∧
      r.xuni_airdropped + u ≤ U64_MAX ∧ r.native_airdropped + n ≤ U64_MAX ∧
      r' = { r with xnm_airdropped := r.xnm_airdropped + x,
                    xblk_airdropped := r.xblk_airdropped + b,
                    xuni_airdropped := r.xuni_airdropped + u,
                    native_airdropped := r.native_airdropped + n,
                    last_updated := now } := by
  simp only [update_record_tx_A, update_record_body_A, checked_add]
  split_ifs with h1 h2 h3 h4 <;> simp_all [eq_comm]

theorem update_record_tx_A_error_overflow (r : AirdropRecord)
    (x b u n : Nat) (now : Int) (e : Err)
    (h : update_record_tx_A r (x, b, u, n) now = .error e) : e = .Overflow := by
  simp only [update_record_tx_A, update_record_body_A, checked_add] at h
  split_ifs at h
  all_goals simp_all

theorem update_record_tx_A_overflow (r : AirdropRecord) (x b u n : Nat)
    (now : Int)
    (h : U64_MAX < r.xnm_airdropped + x ∨ U64_MAX < r.xblk_airdropped + b ∨
         U64_MAX < r.xuni_airdropped + u ∨ U64_MAX < r.native_airdropped + n) :
    update_record_tx_A r (x, b, u, n) now = .error .Overflow := by
  simp only [update_record_tx_A, update_record_body_A, checked_add]
  split_ifs with h1 h2 h3 h4
  all_goals first
    | rfl
    | · exfalso
        omega

theorem stepA_of_error (now : Int) (r : AirdropRecord)
    (d : Nat × Nat × Nat × Nat) (e : Err)
    (h : update_record_tx_A r d now = .error e) : stepA now r d = r := by
  simp [stepA, h]

theorem runSeqA_counters (now : Int) (ds : List (Nat × Nat × Nat × Nat))
    (r : AirdropRecord) :
    (runSeqA now r ds).xnm_airdropped
        = r.xnm_airdropped + ((appliedA now r ds).map (fun d => d.1)).sum ∧
    (runSeqA now r ds).xblk_airdropped
        = r.xblk_airdropped + ((appliedA now r ds).map (fun d => d.2.1)).sum ∧
    (runSeqA now r ds).xuni_airdropped
        = r.xuni_airdropped + ((appliedA now r ds).map (fun d => d.2.2.1)).sum ∧
    (runSeqA now r ds).native_airdropped
        = r.native_airdropped + ((appliedA now r ds).map (fun d => d.2.2.2)).sum := by
  induction ds generalizing r with
  | nil => simp [runSeqA, appliedA]
  | cons d rest ih =>
    rcases d with ⟨x, b, u, n⟩
    have hseq : runSeqA now r ((x, b, u, n) :: rest)
        = runSeqA now (stepA now r (x, b, u, n)) rest := rfl
    rw [hseq]
    cases htx : update_record_tx_A r (x, b, u, n) now with
    | ok r' =>
      have hstep : stepA now r (x, b, u, n) = r' := by simp [stepA, htx]
      have happ : appliedA now r ((x, b, u, n) :: rest)
          = (x, b, u, n) :: appliedA now r' rest := by simp [appliedA, htx]
      obtain ⟨hb1, hb2, hb3, hb4, hr'⟩ :=
        (update_record_tx_A_ok_iff r x b u n now r').1 htx
      obtain ⟨i1, i2, i3, i4⟩ := ih r'
      rw [hstep, happ]
      subst hr'
      simp only [List.map_cons, List.sum_cons] at *
      exact ⟨by omega, by omega, by omega, by omega⟩
    | error e =>
      have hstep := stepA_of_error now r (x, b, u, n) e htx
      have happ : appliedA now r ((x, b, u, n) :: rest)
          = appliedA now r rest := by simp [appliedA, htx]
      rw [hstep, happ]
      exact ih r

/-- Claim C2: for every sequence of variant A `update_record` calls on the
same existing record, each per-token counter after the sequence equals its
initial value plus the sum of the deltas of the successfully applied calls;
a call for which some checked addition would exceed `u64::MAX` fails with
`Overflow` and leaves every counter of the record at its pre-call value
(all-or-nothing) — including the case where the `xblk` addition overflows
after the `xnm` addition already wrote the in-memory account data. -/
theorem update_record_A_accumulates :
    (∀ (now : Int) (r : AirdropRecord) (ds : List (Nat × Nat × Nat × Nat)),
        (runSeqA now r ds).xnm_airdropped
            = r.xnm_airdropped + ((appliedA now r ds).map (fun d => d.1)).sum ∧
        (runSeqA now r ds).xblk_airdropped
            = r.xblk_airdropped + ((appliedA now r ds).map (fun d => d.2.1)).sum ∧
        (runSeqA now r ds).xuni_airdropped
            = r.xuni_airdropped + ((appliedA now r ds).map (fun d => d.2.2.1)).sum ∧
        (runSeqA now r ds).native_airdropped
            = r.native_airdropped + ((appliedA now r ds).map (fun d => d.2.2.2)).sum) ∧
    (∀ (now : Int) (r : AirdropRecord) (x b u n : Nat),
        (U64_MAX < r.xnm_airdropped + x ∨ U64_MAX < r.xblk_airdropped + b ∨
         U64_MAX < r.xuni_airdropped + u ∨ U64_MAX < r.native_airdropped + n) →
        update_record_tx_A r (x, b, u, n) now = .error .Overflow ∧
        stepA now r (x, b, u, n) = r) ∧
    (∀ (now : Int) (r : AirdropRecord) (d : Nat × Nat × Nat × Nat) (e : Err),
        update_record_tx_A r d now = .error e →
        e = .Overflow ∧ stepA now r d = r) ∧
    ((update_record_body_A overflowRec 5 1 0 0 7).1.xnm_airdropped = 5 ∧
     (update_record_body_A overflowRec 5 1 0 0 7).2 = some .Overflow ∧
     update_record_tx_A overflowRec (5, 1, 0, 0) 7 = .error .Overflow ∧
     stepA 7 overflowRec (5, 1, 0, 0) = overflowRec) := by
  refine ⟨fun now r ds => runSeqA_counters now ds r, ?_, ?_, ?_, ?_, ?_, ?_⟩
  · intro now r x b u n h
    have he := update_record_tx_A_overflow r x b u n now h
    exact ⟨he, stepA_of_error now r (x, b, u, n) _ he⟩
  · intro now r d e h
    rcases d with ⟨x, b, u, n⟩
    exact ⟨update_record_tx_A_error_overflow r x b u n now e h,
           stepA_of_error now r (x, b, u, n) e h⟩
  · rfl
  · rfl
  · rfl
  · rfl

/-- Witness for C2 at concrete inputs: two applied calls and one rejected
overflowing call on a fresh record. -/
theorem update_record_A_accumulates_witness :
    update_record_tx_A overflowRec (0, 1, 0, 0) 3 = .error .Overflow ∧
    stepA 3 overflowRec (0, 1, 0, 0) = overflowRec ∧
    (runSeqA 3 demoRec [(500, 0, 0, 0), (300, 0, 0, 0)]).xnm_airdropped
      = demoRec.xnm_airdropped
        + ((appliedA 3 demoRec [(500, 0, 0, 0), (300, 0, 0, 0)]).map
            (fun d => d.1)).sum := by
  have h2 := update_record_A_accumulates.2.1 3 overflowRec 0 1 0 0
    (by right; left; decide)
  have h1 := (update_record_A_accumulates.1 3 demoRec
    [(500, 0, 0, 0), (300, 0, 0, 0)]).1
  exact ⟨h2.1, h2.2, h1⟩

theorem update_record_tx_B_invalid (r : AirdropRecordB) (t a : Nat)
    (now : Int) (ht : 2 ≤ t) :
    update_record_tx_B r t a now = .error .InvalidTokenType := by
  rcases t with _ | t1
  · omega
  rcases t1 with _ | t2
  · omega
  rfl

theorem update_record_tx_B_ok_xnm (r : AirdropRecordB) (a : Nat) (now : Int)
    (r' : AirdropRecordB) :
    update_record_tx_B r 0 a now = .ok r' ↔
      r.xnm_airdropped + a ≤ U64_MAX ∧
      r' = { r with xnm_airdropped := r.xnm_airdropped + a,
                    last_updated := now } := by
  simp only [update_record_tx_B, update_record_body_B, checked_add]
  split_ifs with h <;> simp_all [eq_comm]

theorem update_record_tx_B_ok_xblk (r : AirdropRecordB) (a : Nat) (now : Int)
    (r' : AirdropRecordB) :
    update_record_tx_B r 1 a now = .ok r' ↔
      r.xblk_airdropped + a ≤ U64_MAX ∧
      r' = { r with xblk_airdropped := r.xblk_airdropped + a,
                    last_updated := now } := by
  simp only [update_record_tx_B, update_record_body_B, checked_add]
  split_ifs with h <;> simp_all [eq_comm]

/-- Claim C4: in variant B, every `update_record` call with a token
selector outside {0, 1} fails with `InvalidTokenType` and changes nothing;
a successful call with selector 0 adds the amount to `xnm_airdropped` and
leaves `xblk_airdropped` unchanged, and a successful call with selector 1
adds the amount to `xblk_airdropped` and leaves `xnm_airdropped`
unchanged. -/
theorem update_record_B_selector :
    (∀ (r : AirdropRecordB) (t a : Nat) (now : Int), 2 ≤ t →
        update_record_tx_B r t a now = .error .InvalidTokenType ∧
        stepB now r t a = r) ∧
    (∀ (r : AirdropRecordB) (a : Nat) (now : Int) (r' : AirdropRecordB),
        update_record_tx_B r 0 a now = .ok r' →
        r'.xnm_airdropped = r.xnm_airdropped + a ∧
        r'.xblk_airdropped = r.xblk_airdropped) ∧
    (∀ (r : AirdropRecordB) (a : Nat) (now : Int) (r' : AirdropRecordB),
        update_record_tx_B r 1 a now = .ok r' →
        r'.xblk_airdropped = r.xblk_airdropped + a ∧
        r'.xnm_airdropped = r.xnm_airdropped) := by
  refine ⟨?_, ?_, ?_⟩
  · intro r t a now ht
    have he := update_record_tx_B_invalid r t a now ht
    exact ⟨he, by simp [stepB, he]⟩
  · intro r a now r' h
    obtain ⟨hb, rfl⟩ := (update_record_tx_B_ok_xnm r a now r').1 h
    exact ⟨rfl, rfl⟩
  · intro r a now r' h
    obtain ⟨hb, rfl⟩ := (update_record_tx_B_ok_xblk r a now r').1 h
    exact ⟨rfl, rfl⟩

/-- A demo variant B record for wallet 5, both counters zero. -/
def demoRecB : AirdropRecordB :=
  ⟨5, demoEth, 0, 0, List.replicate 6 0, 0, 255⟩

/-- Witness for C4 at concrete inputs: selector 2 rejected, selector 0
applied to a fresh record. -/
theorem update_record_B_selector_witness :
    update_record_tx_B demoRecB 2 7 3 = .error .InvalidTokenType ∧
    stepB 3 demoRecB 2 7 = demoRecB ∧
    (stepB 3 demoRecB 0 7).xnm_airdropped = demoRecB.xnm_airdropped + 7 ∧
    (stepB 3 demoRecB 0 7).xblk_airdropped = demoRecB.xblk_airdropped := by
  have hinv := update_record_B_selector.1 demoRecB 2 7 3 (by decide)
  have hok := update_record_B_selector.2.1 demoRecB 7 3 (stepB 3 demoRecB 0 7)
    (by rfl)
  exact ⟨hinv.1, hinv.2, hok.1, hok.2⟩

theorem create_run_ok {R : Type} (t t' : Chain R) (A : Pubkey) (c bp0 : Nat)
    (d : Bool) (now : Int) (bp : Nat)
    (hg : t.global = some ⟨A, c, bp0⟩)
    (h : create_run t A d now bp = .ok t') :
    t'.global = some ⟨A, c + 1, bp0⟩ ∧
    t'.runs (c + 1) = some ⟨c + 1, now, 0, 0, d, bp⟩ ∧
    (∀ j, j ≠ c + 1 → t'.runs j = t.runs j) ∧
    t.runs (c + 1) = none ∧ c + 1 ≤ U64_MAX := by
  unfold create_run at h
  rw [hg] at h
  simp only at h
  rw [if_pos trivial] at h
  by_cases hle : c + 1 ≤ U64_MAX
  · rw [if_pos hle] at h
    cases hrun : t.runs (c + 1) with
    | some x => rw [hrun] at h; cases h
    | none =>
      rw [hrun] at h
      cases h
      refine ⟨by simp [setRun], by simp [setRun], ?_, rfl, hle⟩
      intro j hj
      simp [setRun, hj]
  · rw [if_neg hle] at h
    cases h

theorem create_runs_spec {R : Type} (inputs : List (Bool × Int × Nat))
    (s' : Chain R) (A : Pubkey) (bp0 : Nat) :
    ∀ (s : Chain R) (c : Nat), s.global = some ⟨A, c, bp0⟩ →
    create_runs s A inputs = .ok s' →
    s'.global = some ⟨A, c + inputs.length, bp0⟩ ∧
    (∀ j, j ≤ c ∨ c + inputs.length < j → s'.runs j = s.runs j) ∧
    (∀ j, c < j → j ≤ c + inputs.length →
        ∃ d now bp, inputs[j - c - 1]? = some (d, now, bp) ∧
          s'.runs j = some ⟨j, now, 0, 0, d, bp⟩) := by
  induction inputs with
  | nil =>
    intro s c hg h
    simp only [create_runs] at h
    cases h
    exact ⟨by simpa using hg, fun j _ => rfl,
      fun j hj1 hj2 => by simp only [List.length_nil] at hj2; omega⟩
  | cons p rest ih =>
    rcases p with ⟨d, now, bp⟩
    intro s c hg h
    simp only [create_runs] at h
    cases hcr : create_run s A d now bp with
    | error e => rw [hcr] at h; cases h
    | ok s1 =>
      rw [hcr] at h
      obtain ⟨g1, g2, g3, g4, g5⟩ := create_run_ok s s1 A c bp0 d now bp hg hcr
      obtain ⟨i1, i2, i3⟩ := ih s1 (c + 1) g1 h
      refine ⟨?_, ?_, ?_⟩
      · rw [show c + ((d, now, bp) :: rest).length = c + 1 + rest.length by
          simp [List.length_cons]; omega]
        exact i1
      · intro j hj
        have hne : j ≠ c + 1 := by
          rcases hj with hj | hj <;> simp [List.length_cons] at hj ⊢ <;> omega
        have : s'.runs j = s1.runs j := by
          apply i2
          rcases hj with hj | hj
          · exact Or.inl (by omega)
          · right; simp [List.length_cons] at hj; omega
        rw [this, g3 j hne]
      · intro j hj1 hj2
        by_cases hj : j = c + 1
        · subst hj
          refine ⟨d, now, bp, ?_, ?_⟩
          · simp
          · rw [i2 (c + 1) (Or.inl (by omega))]
            exact g2
        · have hj2' : j ≤ c + 1 + rest.length := by
            simp [List.length_cons] at hj2; omega
          obtain ⟨d2, now2, bp2, hidx, hrun⟩ := i3 j (by omega) hj2'
          refine ⟨d2, now2, bp2, ?_, hrun⟩
          rw [show j - c - 1 = (j - (c + 1) - 1) + 1 by omega,
            List.getElem?_cons_succ]
          exact hidx

/-- Claim C3: starting from a freshly initialized variant A state
(`run_counter = 0`, no run accounts), N successful `create_run` calls by
the authority produce runs stored at keys exactly 1..N with no gaps or
repeats, each run's `run_id` equal to its storage key, zeroed totals and
the supplied `dry_run` flag; and each single successful call increments
`run_counter` by exactly 1 and stores the new run — with `run_id` equal to
the new counter value — under that same value. -/
theorem create_run_sequential_ids (inputs : List (Bool × Int × Nat))
    (s s' : Chain AirdropRecord) (A : Pubkey) (bp0 : Nat)
    (hg : s.global = some ⟨A, 0, bp0⟩)
    (hruns : ∀ j, s.runs j = none)
    (h : create_runs s A inputs = .ok s') :
    s'.global = some ⟨A, inputs.length, bp0⟩ ∧
    (∀ j, (s'.runs j).isSome = true ↔ (1 ≤ j ∧ j ≤ inputs.length)) ∧
    (∀ j, 1 ≤ j → j ≤ inputs.length →
        ∃ d now bp, inputs[j - 1]? = some (d, now, bp) ∧
          s'.runs j = some ⟨j, now, 0, 0, d, bp⟩) ∧
    (∀ (t t' : Chain AirdropRecord) (c bp2 : Nat) (d : Bool) (now : Int)
        (bp : Nat), t.global = some ⟨A, c, bp2⟩ →
        create_run t A d now bp = .ok t' →
        t'.global = some ⟨A, c + 1, bp2⟩ ∧
        t'.runs (c + 1) = some ⟨c + 1, now, 0, 0, d, bp⟩) := by
  obtain ⟨g1, g2, g3⟩ := create_runs_spec inputs s' A bp0 s 0 hg h
  refine ⟨by simpa using g1, ?_, ?_, ?_⟩
  · intro j
    constructor
    · intro hs
      rcases Nat.lt_or_ge j 1 with hj | hj
      · exfalso
        have hz := g2 j (Or.inl (by omega))
        rw [hz, hruns j] at hs
        simp at hs
      rcases Nat.lt_or_ge inputs.length j with hj2 | hj2
      · exfalso
        have hz := g2 j (Or.inr (by omega))
        rw [hz, hruns j] at hs
        simp at hs
      · exact ⟨hj, hj2⟩
    · rintro ⟨hj1, hj2⟩
      obtain ⟨d, now, bp, _, hr⟩ := g3 j (by omega) (by omega)
      simp [hr]
  · intro j hj1 hj2
    obtain ⟨d, now, bp, hidx, hr⟩ := g3 j (by omega) (by omega)
    exact ⟨d, now, bp, by simpa using hidx, hr⟩
  · intro t t' c bp2 d now bp htg htc
    obtain ⟨k1, k2, _, _, _⟩ := create_run_ok t t' A c bp2 d now bp htg htc
    exact ⟨k1, k2⟩

/-- A freshly initialized variant A chain: authority 0, counter 0. -/
def c3start : Chain AirdropRecord :=
  ⟨some ⟨0, 0, 254⟩, fun _ => none, fun _ => none⟩

/-- Two demo `create_run` inputs (dry_run flag, timestamp, bump). -/
def c3inputs : List (Bool × Int × Nat) := [(true, 5, 9), (false, 6, 8)]

/-- The chain after the two demo `create_run` calls. -/
def c3final : Chain AirdropRecord :=
  match create_runs c3start 0 c3inputs with
  | .ok s => s
  | .error _ => c3start

/-- Witness for C3: two concrete `create_run` calls from a fresh state
yield counter 2 and a run account exactly at keys 1 and 2. -/
theorem create_run_sequential_ids_witness :
    c3final.global = some ⟨0, 2, 254⟩ ∧
    ((c3final.runs 2).isSome = true ↔ (1 ≤ 2 ∧ 2 ≤ c3inputs.length)) ∧
    ((c3final.runs 3).isSome = true ↔ (1 ≤ 3 ∧ 3 ≤ c3inputs.length)) := by
  obtain ⟨g1, g2, g3, g4⟩ :=
    create_run_sequential_ids c3inputs c3start c3final 0 254 rfl
      (fun j => rfl) rfl
  exact ⟨by simpa [c3inputs] using g1, g2 2, g2 3⟩

/-- Claim C1 (evaluated at the failing input): the variant A
`UpdateRecord`, `InitializeRecord` and `CloseRecord` accounts structs carry
no `state.authority == authority.key()` constraint — they do not even
reference the `GlobalState` account — so with configured authority 0,
caller 1 successfully mutates, creates and closes records instead of
failing with `Unauthorized`.  Only `CreateRun`/`UpdateRunTotals` check the
authority. -/
theorem record_ops_skip_authority_check :
    demoChainA.global = some ⟨0, 0, 254⟩ ∧
    (1 : Pubkey) ≠ 0 ∧
    update_record_A demoChainA 1 demoKey 3 0 0 0 7
      = .ok (setRecord demoChainA demoKey
              { demoRec with xnm_airdropped := 3, last_updated := 7 }) ∧
    initialize_record_A demoChainA 1 6 demoEth 7 255
      = .ok (setRecord demoChainA (deriveRecordKey 6 demoEth)
              ⟨6, demoEth, 0, 0, 0, 0, List.replicate 4 0, 7, 255⟩) ∧
    initialize_and_update_A demoChainA 1 6 demoEth 1 2 3 4 7 255
      = .ok (setRecord demoChainA (deriveRecordKey 6 demoEth)
              ⟨6, demoEth, 1, 2, 3, 4, List.replicate 4 0, 7, 255⟩) ∧
    close_record_A demoChainA 1 demoKey = .ok (delRecord demoChainA demoKey) := by
  exact ⟨rfl, by decide, rfl, rfl, rfl, rfl⟩

/-- Claim C6: for a fixed wallet, two 42-byte external addresses derive the
same record key exactly when they agree on their first 20 bytes — the key
is a function of the wallet and only the first 20 address bytes, and
addresses differing within the first 20 bytes get distinct keys. -/
theorem record_key_first20 (w : Pubkey) (a b : List Nat)
    (ha : a.length = 42) (hb : b.length = 42) :
    deriveRecordKey w a = deriveRecordKey w b ↔ a.take 20 = b.take 20 := by
  simp [deriveRecordKey, RecordKey.mk.injEq]

/-- Witness for C6: two concrete 42-byte addresses sharing the 20-byte
head. -/
theorem record_key_first20_witness :
    demoEth.length = 42 ∧ demoEth2.length = 42 ∧
    (deriveRecordKey 1 demoEth = deriveRecordKey 1 demoEth2 ↔
      demoEth.take 20 = demoEth2.take 20) :=
  ⟨by decide, by decide,
   record_key_first20 1 demoEth demoEth2 (by decide) (by decide)⟩

/-- Claim C5: variant A `initialize_record` on a key whose record already
exists fails with the duplicate-key error (`init` on an account already in
use) and commits nothing, leaving the existing record as it was; on a key
with no record it succeeds and creates a record whose four cumulative
counters are all 0 and whose `last_updated` is the current time. -/
theorem initialize_record_A_dup_fresh :
    (∀ (s : Chain AirdropRecord) (c w : Pubkey) (eth : List Nat) (now : Int)
        (bp : Nat) (r : AirdropRecord),
        s.records (deriveRecordKey w eth) = some r →
        initialize_record_A s c w eth now bp = .error .AccountAlreadyInUse ∧
        commit s (initialize_record_A s c w eth now bp) = s) ∧
    (∀ (s : Chain AirdropRecord) (c w : Pubkey) (eth : List Nat) (now : Int)
        (bp : Nat),
        s.records (deriveRecordKey w eth) = none →
        initialize_record_A s c w eth now bp
          = .ok (setRecord s (deriveRecordKey w eth)
                  ⟨w, eth, 0, 0, 0, 0, List.replicate 4 0, now, bp⟩)) := by
  constructor
  · intro s c w eth now bp r h
    constructor
    · simp [initialize_record_A, h]
    · simp [initialize_record_A, h, commit]
  · intro s c w eth now bp h
    simp [initialize_record_A, h]

/-- Witness for C5: re-initializing the existing demo record fails and
changes nothing; initializing a fresh wallet succeeds zeroed. -/
theorem initialize_record_A_dup_fresh_witness :
    (initialize_record_A demoChainA 0 5 demoEth 9 7
      = .error .AccountAlreadyInUse) ∧
    commit demoChainA (initialize_record_A demoChainA 0 5 demoEth 9 7)
      = demoChainA ∧
    initialize_record_A demoChainA 0 6 demoEth 9 7
      = .ok (setRecord demoChainA (deriveRecordKey 6 demoEth)
              ⟨6, demoEth, 0, 0, 0, 0, List.replicate 4 0, 9, 7⟩) := by
  have h1 := initialize_record_A_dup_fresh.1 demoChainA 0 5 demoEth 9 7
    demoRec rfl
  have h2 := initialize_record_A_dup_fresh.2 demoChainA 0 6 demoEth 9 7
    (by decide)
  exact ⟨h1.1, h1.2, h2⟩

/-- Claim C7: for an existing record at its derived key, `close_record`
destroys the record (its key afterwards resolves to nothing), and a
subsequent `initialize_record` on the same (wallet, address) key succeeds
and produces a fresh record with all four cumulative counters 0 — the
previous amounts do not survive. -/
theorem close_then_initialize_fresh (s : Chain AirdropRecord)
    (c c2 w : Pubkey) (eth : List Nat) (now2 : Int) (bp : Nat)
    (r : AirdropRecord)
    (hk : s.records (deriveRecordKey w eth) = some r)
    (hself : deriveRecordKey r.sol_wallet r.eth_address
      = deriveRecordKey w eth) :
    close_record_A s c (deriveRecordKey w eth)
      = .ok (delRecord s (deriveRecordKey w eth)) ∧
    (delRecord s (deriveRecordKey w eth)).records (deriveRecordKey w eth)
      = none ∧
    initialize_record_A (delRecord s (deriveRecordKey w eth)) c2 w eth now2 bp
      = .ok (setRecord (delRecord s (deriveRecordKey w eth))
              (deriveRecordKey w eth)
              ⟨w, eth, 0, 0, 0, 0, List.replicate 4 0, now2, bp⟩) := by
  refine ⟨?_, ?_, ?_⟩
  · simp [close_record_A, hk, hself]
  · simp [delRecord]
  · simp [initialize_record_A, delRecord]

/-- Witness for C7 on the demo chain: close the demo record, then
re-initialize the same key to a zeroed record. -/
theorem close_then_initialize_fresh_witness :
    close_record_A demoChainA 0 (deriveRecordKey 5 demoEth)
      = .ok (delRecord demoChainA (deriveRecordKey 5 demoEth)) ∧
    (delRecord demoChainA (deriveRecordKey 5 demoEth)).records
        (deriveRecordKey 5 demoEth) = none ∧
    initialize_record_A (delRecord demoChainA (deriveRecordKey 5 demoEth))
        0 5 demoEth 11 7
      = .ok (setRecord (delRecord demoChainA (deriveRecordKey 5 demoEth))
              (deriveRecordKey 5 demoEth)
              ⟨5, demoEth, 0, 0, 0, 0, List.replicate 4 0, 11, 7⟩) :=
  close_then_initialize_fresh demoChainA 0 0 5 demoEth 11 7 demoRec rfl rfl

theorem setRun_twice {R : Type} (s : Chain R) (k : Nat)
    (r1 r2 : AirdropRun) : setRun (setRun s k r1) k r2 = setRun s k r2 := by
  simp only [setRun, Chain.mk.injEq, and_true, true_and]
  funext j
  by_cases hj : j = k <;> simp [hj]

/-- Claim C8: `update_run_totals` on an existing run overwrites
`total_recipients`/`total_amount` unconditionally and changes no other
field of the run: repeating the same call reproduces the same state
(idempotent), and a later call with different arguments overwrites again
(last write wins).  The generic operation is shared verbatim by both
variants. -/
theorem update_run_totals_overwrite (R : Type) (s : Chain R)
    (st : GlobalState) (rid tr ta tr2 ta2 : Nat) (run : AirdropRun)
    (hg : s.global = some st) (hr : s.runs rid = some run) :
    update_run_totals s st.authority rid tr ta
      = .ok (setRun s rid
              { run with total_recipients := tr, total_amount := ta }) ∧
    update_run_totals
        (setRun s rid { run with total_recipients := tr, total_amount := ta })
        st.authority rid tr ta
      = .ok (setRun s rid
              { run with total_recipients := tr, total_amount := ta }) ∧
    update_run_totals
        (setRun s rid { run with total_recipients := tr, total_amount := ta })
        st.authority rid tr2 ta2
      = .ok (setRun s rid
              { run with total_recipients := tr2, total_amount := ta2 }) := by
  have hg' : (setRun s rid
      { run with total_recipients := tr, total_amount := ta }).global
      = some st := by simpa [setRun] using hg
  have hr' : (setRun s rid
      { run with total_recipients := tr, total_amount := ta }).runs rid
      = some { run with total_recipients := tr, total_amount := ta } := by
    simp [setRun]
  refine ⟨?_, ?_, ?_⟩
  · simp [update_run_totals, hg, hr]
  · simp [update_run_totals, hg', hr', setRun_twice]
  · simp [update_run_totals, hg', hr', setRun_twice]

/-- A demo run account with zeroed totals, id 1. -/
def demoRun : AirdropRun := ⟨1, 0, 0, 0, false, 9⟩

/-- A demo chain holding the demo run under key 1, counter 1. -/
def demoChainRuns : Chain AirdropRecord :=
  ⟨some ⟨0, 1, 254⟩, fun j => if j = 1 then some demoRun else none,
   fun _ => none⟩

/-- Witness for C8 at concrete totals (10, 100) then (11, 200). -/
theorem update_run_totals_overwrite_witness :
    update_run_totals demoChainRuns 0 1 10 100
      = .ok (setRun demoChainRuns 1 ⟨1, 0, 10, 100, false, 9⟩) ∧
    update_run_totals (setRun demoChainRuns 1 ⟨1, 0, 10, 100, false, 9⟩)
        0 1 10 100
      = .ok (setRun demoChainRuns 1 ⟨1, 0, 10, 100, false, 9⟩) ∧
    update_run_totals (setRun demoChainRuns 1 ⟨1, 0, 10, 100, false, 9⟩)
        0 1 11 200
      = .ok (setRun demoChainRuns 1 ⟨1, 0, 11, 200, false, 9⟩) :=
  update_run_totals_overwrite AirdropRecord demoChainRuns ⟨0, 1, 254⟩
    1 10 100 11 200 demoRun rfl rfl

/-- Claim C10: variant A `update_record` with all four deltas 0 on an
existing record (with `u64`-representable counters) always succeeds —
never `Overflow` — and changes nothing in the record except
`last_updated`: counters, wallet, stored address, reserved and bump all
stay exactly as they were. -/
theorem update_record_A_zero_identity (s : Chain AirdropRecord)
    (c : Pubkey) (k : RecordKey) (r : AirdropRecord) (now : Int)
    (hk : s.records k = some r)
    (hself : deriveRecordKey r.sol_wallet r.eth_address = k)
    (h1 : r.xnm_airdropped ≤ U64_MAX) (h2 : r.xblk_airdropped ≤ U64_MAX)
    (h3 : r.xuni_airdropped ≤ U64_MAX) (h4 : r.native_airdropped ≤ U64_MAX) :
    update_record_A s c k 0 0 0 0 now
      = .ok (setRecord s k { r with last_updated := now }) := by
  have htx : update_record_tx_A r (0, 0, 0, 0) now
      = .ok { r with last_updated := now } := by
    rw [update_record_tx_A_ok_iff]
    refine ⟨by omega, by omega, by omega, by omega, ?_⟩
    simp
  simp only [update_record_A, hk]
  rw [if_pos hself, htx]

/-- Witness for C10 on the demo chain. -/
theorem update_record_A_zero_identity_witness :
    update_record_A demoChainA 0 demoKey 0 0 0 0 11
      = .ok (setRecord demoChainA demoKey { demoRec with last_updated := 11 }) :=
  update_record_A_zero_identity demoChainA 0 demoKey demoRec 11 rfl rfl
    (by decide) (by decide) (by decide) (by decide)

theorem initialize_state_records {R : Type} (s s' : Chain R) (c : Pubkey)
    (bp : Nat) (h : initialize_state s c bp = .ok s') :
    s'.records = s.records := by
  unfold initialize_state at h
  cases hg : s.global with
  | some st => rw [hg] at h; cases h
  | none => rw [hg] at h; cases h; rfl

theorem create_run_records {R : Type} (s s' : Chain R) (c : Pubkey)
    (d : Bool) (now : Int) (bp : Nat) (h : create_run s c d now bp = .ok s') :
    s'.records = s.records := by
  unfold create_run at h
  cases hg : s.global with
  | none => rw [hg] at h; cases h
  | some st =>
    rw [hg] at h
    simp only at h
    by_cases hA : st.authority = c
    · rw [if_pos hA] at h
      by_cases hle : st.run_counter + 1 ≤ U64_MAX
      · rw [if_pos hle] at h
        cases hrun : s.runs (st.run_counter + 1) with
        | some x => rw [hrun] at h; cases h
        | none => rw [hrun] at h; cases h; rfl
      · rw [if_neg hle] at h; cases h
    · rw [if_neg hA] at h; cases h

theorem update_run_totals_records {R : Type} (s s' : Chain R) (c : Pubkey)
    (rid tr ta : Nat) (h : update_run_totals s c rid tr ta = .ok s') :
    s'.records = s.records := by
  unfold update_run_totals at h
  cases hg : s.global with
  | none => rw [hg] at h; cases h
  | some st =>
    rw [hg] at h
    simp only at h
    by_cases hA : st.authority = c
    · rw [if_pos hA] at h
      cases hrun : s.runs rid with
      | none => rw [hrun] at h; cases h
      | some run => rw [hrun] at h; cases h; rfl
    · rw [if_neg hA] at h; cases h

theorem initialize_record_A_ok (s s' : Chain AirdropRecord) (c w : Pubkey)
    (eth : List Nat) (now : Int) (bp : Nat)
    (h : initialize_record_A s c w eth now bp = .ok s') :
    s' = setRecord s (deriveRecordKey w eth)
          ⟨w, eth, 0, 0, 0, 0, List.replicate 4 0, now, bp⟩ := by
  unfold initialize_record_A at h
  cases hrec : s.records (deriveRecordKey w eth) with
  | some x => rw [hrec] at h; cases h
  | none => rw [hrec] at h; cases h; rfl

theorem update_record_A_ok (s s' : Chain AirdropRecord) (c : Pubkey)
    (k : RecordKey) (x b u n : Nat) (now : Int)
    (h : update_record_A s c k x b u n now = .ok s') :
    ∃ r r', s.records k = some r ∧
      update_record_tx_A r (x, b, u, n) now = .ok r' ∧
      s' = setRecord s k r' := by
  unfold update_record_A at h
  cases hrec : s.records k with
  | none => rw [hrec] at h; cases h
  | some r =>
    rw [hrec] at h
    simp only at h
    by_cases hself : deriveRecordKey r.sol_wallet r.eth_address = k
    · rw [if_pos hself] at h
      cases htx : update_record_tx_A r (x, b, u, n) now with
      | error e => rw [htx] at h; cases h
      | ok r' => rw [htx] at h; cases h; exact ⟨r, r', rfl, htx, rfl⟩
    · rw [if_neg hself] at h; cases h

theorem initialize_and_update_A_ok (s s' : Chain AirdropRecord)
    (c w : Pubkey) (eth : List Nat) (x b u n : Nat) (now : Int) (bp : Nat)
    (h : initialize_and_update_A s c w eth x b u n now bp = .ok s') :
    s' = setRecord s (deriveRecordKey w eth)
          ⟨w, eth, x, b, u, n, List.replicate 4 0, now, bp⟩ := by
  unfold initialize_and_update_A at h
  cases hrec : s.records (deriveRecordKey w eth) with
  | some v => rw [hrec] at h; cases h
  | none => rw [hrec] at h; cases h; rfl

theorem close_record_A_ok (s s' : Chain AirdropRecord) (c : Pubkey)
    (k : RecordKey) (h : close_record_A s c k = .ok s') :
    s' = delRecord s k := by
  unfold close_record_A at h
  cases hrec : s.records k with
  | none => rw [hrec] at h; cases h
  | some r =>
    rw [hrec] at h
    simp only at h
    by_cases hself : deriveRecordKey r.sol_wallet r.eth_address = k
    · rw [if_pos hself] at h; cases h; rfl
    · rw [if_neg hself] at h; cases h

theorem update_record_tx_A_reserved (r r' : AirdropRecord) (x b u n : Nat)
    (now : Int) (h : update_record_tx_A r (x, b, u, n) now = .ok r') :
    r'.reserved = r.reserved := by
  obtain ⟨-, -, -, -, rfl⟩ := (update_record_tx_A_ok_iff r x b u n now r').1 h
  rfl

theorem initialize_record_B_ok (s s' : Chain AirdropRecordB) (c w : Pubkey)
    (eth : List Nat) (now : Int) (bp : Nat)
    (h : initialize_record_B s c w eth now bp = .ok s') :
    s' = setRecord s (deriveRecordKey w eth)
          ⟨w, eth, 0, 0, List.replicate 6 0, now, bp⟩ := by
  unfold initialize_record_B at h
  cases hrec : s.records (deriveRecordKey w eth) with
  | some x => rw [hrec] at h; cases h
  | none => rw [hrec] at h; cases h; rfl

theorem update_record_B_ok (s s' : Chain AirdropRecordB) (c : Pubkey)
    (k : RecordKey) (t a : Nat) (now : Int)
    (h : update_record_B s c k t a now = .ok s') :
    ∃ r r', s.records k = some r ∧
      update_record_tx_B r t a now = .ok r' ∧
      s' = setRecord s k r' := by
  unfold update_record_B at h
  cases hrec : s.records k with
  | none => rw [hrec] at h; cases h
  | some r =>
    rw [hrec] at h
    simp only at h
    by_cases hself : deriveRecordKey r.sol_wallet r.eth_address = k
    · rw [if_pos hself] at h
      cases htx : update_record_tx_B r t a now with
      | error e => rw [htx] at h; cases h
      | ok r' => rw [htx] at h; cases h; exact ⟨r, r', rfl, htx, rfl⟩
    · rw [if_neg hself] at h; cases h

theorem initialize_and_update_B_ok (s s' : Chain AirdropRecordB)
    (c w : Pubkey) (eth : List Nat) (t a : Nat) (now : Int) (bp : Nat)
    (h : initialize_and_update_B s c w eth t a now bp = .ok s') :
    ∃ v1 v2, s' = setRecord s (deriveRecordKey w eth)
          ⟨w, eth, v1, v2, List.replicate 6 0, now, bp⟩ := by
  unfold initialize_and_update_B at h
  cases hrec : s.records (deriveRecordKey w eth) with
  | some v => rw [hrec] at h; cases h
  | none =>
    rw [hrec] at h
    rcases t with _ | _ | t2
    · cases h; exact ⟨a, 0, rfl⟩
    · cases h; exact ⟨0, a, rfl⟩
    · cases h

theorem close_record_B_ok (s s' : Chain AirdropRecordB) (c : Pubkey)
    (k : RecordKey) (h : close_record_B s c k = .ok s') :
    s' = delRecord s k := by
  unfold close_record_B at h
  cases hrec : s.records k with
  | none => rw [hrec] at h; cases h
  | some r =>
    rw [hrec] at h
    simp only at h
    by_cases hself : deriveRecordKey r.sol_wallet r.eth_address = k
    · rw [if_pos hself] at h; cases h; rfl
    · rw [if_neg hself] at h; cases h

theorem update_record_tx_B_reserved (r r' : AirdropRecordB) (t a : Nat)
    (now : Int) (h : update_record_tx_B r t a now = .ok r') :
    r'.reserved = r.reserved := by
  rcases t with _ | _ | t2
  · obtain ⟨-, rfl⟩ := (update_record_tx_B_ok_xnm r a now r').1 h
    rfl
  · obtain ⟨-, rfl⟩ := (update_record_tx_B_ok_xblk r a now r').1 h
    rfl
  · rw [update_record_tx_B_invalid r (t2 + 2) a now (by omega)] at h
    cases h

/-- The C9 invariant for variant A: every stored record has an all-zero
4-element reserved array. -/
def InvA (s : Chain AirdropRecord) : Prop :=
  ∀ k r, s.records k = some r → r.reserved = List.replicate 4 0

/-- The C9 invariant for variant B: every stored record has an all-zero
6-element reserved array. -/
def InvB (s : Chain AirdropRecordB) : Prop :=
  ∀ k r, s.records k = some r → r.reserved = List.replicate 6 0

theorem InvA_setRecord (s : Chain AirdropRecord) (k : RecordKey)
    (r' : AirdropRecord) (hs : InvA s)
    (hr : r'.reserved = List.replicate 4 0) : InvA (setRecord s k r') := by
  intro k2 r2 h2
  simp only [setRecord] at h2
  by_cases hk : k2 = k
  · rw [if_pos hk] at h2; cases h2; exact hr
  · rw [if_neg hk] at h2; exact hs k2 r2 h2

theorem InvA_delRecord (s : Chain AirdropRecord) (k : RecordKey)
    (hs : InvA s) : InvA (delRecord s k) := by
  intro k2 r2 h2
  simp only [delRecord] at h2
  by_cases hk : k2 = k
  · rw [if_pos hk] at h2; cases h2
  · rw [if_neg hk] at h2; exact hs k2 r2 h2

theorem InvB_setRecord (s : Chain AirdropRecordB) (k : RecordKey)
    (r' : AirdropRecordB) (hs : InvB s)
    (hr : r'.reserved = List.replicate 6 0) : InvB (setRecord s k r') := by
  intro k2 r2 h2
  simp only [setRecord] at h2
  by_cases hk : k2 = k
  · rw [if_pos hk] at h2; cases h2; exact hr
  · rw [if_neg hk] at h2; exact hs k2 r2 h2

theorem InvB_delRecord (s : Chain AirdropRecordB) (k : RecordKey)
    (hs : InvB s) : InvB (delRecord s k) := by
  intro k2 r2 h2
  simp only [delRecord] at h2
  by_cases hk : k2 = k
  · rw [if_pos hk] at h2; cases h2
  · rw [if_neg hk] at h2; exact hs k2 r2 h2

/-- Claim C9: in every reachable chain state of either variant, every
stored `AirdropRecord` has an all-zero `reserved` array —
`initialize_record` and `initialize_and_update` zero it, `update_record`
never touches it, and `close_record` only removes records, so the
invariant is preserved by every operation. -/
theorem reserved_always_zero :
    (∀ s : Chain AirdropRecord, ReachableA s →
        ∀ k r, s.records k = some r → r.reserved = List.replicate 4 0) ∧
    (∀ s : Chain AirdropRecordB, ReachableB s →
        ∀ k r, s.records k = some r → r.reserved = List.replicate 6 0) := by
  constructor
  · intro s hreach
    induction hreach with
    | empty => intro k r h; cases h
    | init_state hprev hop ih =>
      intro k r h
      rw [initialize_state_records _ _ _ _ hop] at h
      exact ih k r h
    | c_run hprev hop ih =>
      intro k r h
      rw [create_run_records _ _ _ _ _ _ hop] at h
      exact ih k r h
    | run_totals hprev hop ih =>
      intro k r h
      rw [update_run_totals_records _ _ _ _ _ _ hop] at h
      exact ih k r h
    | init_rec hprev hop ih =>
      rw [initialize_record_A_ok _ _ _ _ _ _ _ hop]
      exact InvA_setRecord _ _ _ ih rfl
    | upd_rec hprev hop ih =>
      obtain ⟨r0, r1, hrec, htx, rfl⟩ := update_record_A_ok _ _ _ _ _ _ _ _ _ hop
      refine InvA_setRecord _ _ _ ih ?_
      rw [update_record_tx_A_reserved _ _ _ _ _ _ _ htx]
      exact ih _ _ hrec
    | init_upd hprev hop ih =>
      rw [initialize_and_update_A_ok _ _ _ _ _ _ _ _ _ _ _ hop]
      exact InvA_setRecord _ _ _ ih rfl
    | close_rec hprev hop ih =>
      rw [close_record_A_ok _ _ _ _ hop]
      exact InvA_delRecord _ _ ih
  · intro s hreach
    induction hreach with
    | empty => intro k r h; cases h
    | init_state hprev hop ih =>
      intro k r h
      rw [initialize_state_records _ _ _ _ hop] at h
      exact ih k r h
    | c_run hprev hop ih =>
      intro k r h
      rw [create_run_records _ _ _ _ _ _ hop] at h
      exact ih k r h
    | run_totals hprev hop ih =>
      intro k r h
      rw [update_run_totals_records _ _ _ _ _ _ hop] at h
      exact ih k r h
    | init_rec hprev hop ih =>
      rw [initialize_record_B_ok _ _ _ _ _ _ _ hop]
      exact InvB_setRecord _ _ _ ih rfl
    | upd_rec hprev hop ih =>
      obtain ⟨r0, r1, hrec, htx, rfl⟩ := update_record_B_ok _ _ _ _ _ _ _ hop
      refine InvB_setRecord _ _ _ ih ?_
      rw [update_record_tx_B_reserved _ _ _ _ _ htx]
      exact ih _ _ hrec
    | init_upd hprev hop ih =>
      obtain ⟨v1, v2, rfl⟩ := initialize_and_update_B_ok _ _ _ _ _ _ _ _ _ hop
      exact InvB_setRecord _ _ _ ih rfl
    | close_rec hprev hop ih =>
      rw [close_record_B_ok _ _ _ _ hop]
      exact InvB_delRecord _ _ ih

/-- A reachable variant A chain holding one freshly initialized record. -/
def c9chainA : Chain AirdropRecord :=
  setRecord Chain.empty (deriveRecordKey 5 demoEth)
    ⟨5, demoEth, 0, 0, 0, 0, List.replicate 4 0, 7, 255⟩

/-- A reachable variant B chain holding one freshly initialized record. -/
def c9chainB : Chain AirdropRecordB :=
  setRecord Chain.empty (deriveRecordKey 5 demoEth)
    ⟨5, demoEth, 0, 0, List.replicate 6 0, 7, 255⟩

/-- Witness for C9: the records of the two concrete reachable chains have
all-zero reserved arrays. -/
theorem reserved_always_zero_witness :
    (⟨5, demoEth, 0, 0, 0, 0, List.replicate 4 0, 7, 255⟩ :
        AirdropRecord).reserved = List.replicate 4 0 ∧
    (⟨5, demoEth, 0, 0, List.replicate 6 0, 7, 255⟩ :
        AirdropRecordB).reserved = List.replicate 6 0 := by
  constructor
  · exact reserved_always_zero.1 c9chainA
      (ReachableA.init_rec (c := 0) ReachableA.empty rfl)
      (deriveRecordKey 5 demoEth) _ rfl
  · exact reserved_always_zero.2 c9chainB
      (ReachableB.init_rec (c := 0) ReachableB.empty rfl)
      (deriveRecordKey 5 demoEth) _ rfl

end XenAirdrop
